import Mathlib

/-!
Verification development for the template analysis and content reconciliation
engine of `bo_project_server`.

The definitions below are a shallow embedding of the Python sources
`src/utils/template_analyzer.py` and `src/utils/template_mapper.py`.
HTML documents (BeautifulSoup trees) are modelled by the inductive type
`Node`; a parsed document is an element node whose tag is `[document]`,
mirroring the BeautifulSoup root object.  Python string primitives
(`strip`, `lower`, `isupper`, `re.sub` on the concrete patterns used by the
sources) are modelled on the character lists underlying Lean strings; the
case functions cover ASCII plus the Latin letters that occur in the
repository vocabulary (Swedish å/ä/ö, é, ü), which is the alphabet the
sources are applied to.
-/

/-! ### Python string primitives -/

/-- Whitespace characters recognised by Python `str.strip()` and by the `\s`
regex class (ASCII range, which is the range exercised by the sources). -/
def isPySpace (c : Char) : Bool :=
  c = ' ' || c = '\t' || c = '\n' || c = '\r' || c = '\x0b' || c = '\x0c'

/-- Python `str.strip()`: remove leading and trailing whitespace. -/
def pyStrip (s : String) : String :=
  ⟨((s.toList.dropWhile isPySpace).reverse.dropWhile isPySpace).reverse⟩

/-- One-character lower-casing as done by Python `str.lower()`, restricted to
ASCII plus the upper-case Latin letters used in the repository templates. -/
def pyLowerChar (c : Char) : Char :=
  if 'A' ≤ c ∧ c ≤ 'Z' then Char.ofNat (c.toNat + 32)
  else if c = 'Å' then 'å'
  else if c = 'Ä' then 'ä'
  else if c = 'Ö' then 'ö'
  else if c = 'É' then 'é'
  else if c = 'Ü' then 'ü'
  else c

/-- Python `str.lower()`. -/
def pyLower (s : String) : String := ⟨s.toList.map pyLowerChar⟩

/-- Lower-case cased letters of the modelled alphabet. -/
def pyIsLowerChar (c : Char) : Bool :=
  ('a' ≤ c && c ≤ 'z') || c = 'å' || c = 'ä' || c = 'ö' || c = 'é' || c = 'ü'

/-- Upper-case cased letters of the modelled alphabet. -/
def pyIsUpperChar (c : Char) : Bool :=
  ('A' ≤ c && c ≤ 'Z') || c = 'Å' || c = 'Ä' || c = 'Ö' || c = 'É' || c = 'Ü'

/-- Python `str.isupper()`: at least one cased character and no lower-case
cased character. -/
def pyIsUpper (s : String) : Bool :=
  s.toList.any (fun c => pyIsLowerChar c || pyIsUpperChar c)
    && s.toList.all (fun c => !pyIsLowerChar c)

/-- Python `a in b` substring test (`strContains hay pat` is `pat in hay`). -/
def containsPattern (pat : List Char) : List Char → Bool
  | [] => pat.isEmpty
  | c :: rest => pat.isPrefixOf (c :: rest) || containsPattern pat rest

/-- Substring containment on strings, Python `pat in hay`. -/
def strContains (hay pat : String) : Bool := containsPattern pat.toList hay.toList

/-- Collapse of every whitespace run to a single blank, Python
`re.sub(r'\s+', ' ', s)`; the flag records whether the previous character
belonged to a whitespace run (so only the first character of a run emits
the blank). -/
def collapseWsAux : Bool → List Char → List Char
  | _, [] => []
  | inRun, c :: rest =>
    if isPySpace c then
      if inRun then collapseWsAux true rest
      else ' ' :: collapseWsAux true rest
    else c :: collapseWsAux false rest

/-- List form of `re.sub(r'\s+', ' ', s)`. -/
def collapseWsList (l : List Char) : List Char := collapseWsAux false l

/-- String form of `collapseWsList`. -/
def collapseWs (s : String) : String := ⟨collapseWsList s.toList⟩

/-! ### DOM model -/

/-- A BeautifulSoup node: a `NavigableString` or a `Tag` with a name, an
attribute list and children.  A whole parsed document is an element whose
tag is `[document]` (mirroring the BeautifulSoup root). -/
inductive Node where
  | text : String → Node
  | elem : String → List (String × String) → List Node → Node

mutual
/-- Boolean equality on nodes (deriving is unavailable for this nested
inductive in this toolchain, so the instance is spelt out). -/
def Node.beq : Node → Node → Bool
  | .text a, .text b => a == b
  | .elem t1 a1 c1, .elem t2 a2 c2 => t1 == t2 && a1 == a2 && Node.beqList c1 c2
  | _, _ => false
/-- Boolean equality on node lists. -/
def Node.beqList : List Node → List Node → Bool
  | [], [] => true
  | x :: xs, y :: ys => Node.beq x y && Node.beqList xs ys
  | _, _ => false
end

mutual
/-- Soundness and completeness of `Node.beq`. -/
theorem Node.beq_iff : ∀ a b : Node, Node.beq a b = true ↔ a = b
  | .text a, .text b => by simp [Node.beq]
  | .elem t1 a1 c1, .elem t2 a2 c2 => by
      simp [Node.beq, Node.beqList_iff c1 c2, Bool.and_assoc]
  | .text _, .elem _ _ _ => by simp [Node.beq]
  | .elem _ _ _, .text _ => by simp [Node.beq]
/-- Soundness and completeness of `Node.beqList`. -/
theorem Node.beqList_iff : ∀ a b : List Node, Node.beqList a b = true ↔ a = b
  | [], [] => by simp [Node.beqList]
  | x :: xs, y :: ys => by
      simp [Node.beqList, Node.beq_iff x y, Node.beqList_iff xs ys]
  | [], _ :: _ => by simp [Node.beqList]
  | _ :: _, [] => by simp [Node.beqList]
end

instance : DecidableEq Node := fun a b => decidable_of_iff _ (Node.beq_iff a b)

/-- Tag-name test: `n.isTag t` holds for an element named `t`. -/
def Node.isTag (t : String) : Node → Bool
  | .elem n _ _ => n = t
  | _ => false

/-- Attribute lookup, BeautifulSoup `tag.get(key)`. -/
def Node.attr : Node → String → Option String
  | .elem _ attrs _, k => (attrs.find? (fun kv => kv.1 == k)).map (·.2)
  | .text _, _ => none

mutual
/-- The stripped descendant strings of a node, BeautifulSoup
`stripped_strings`: every descendant `NavigableString`, stripped, with the
ones that strip to nothing skipped. -/
def strippedStrings : Node → List String
  | .text s => let t := pyStrip s; if t = "" then [] else [t]
  | .elem _ _ cs => strippedStringsList cs
/-- Stripped strings of a forest. -/
def strippedStringsList : List Node → List String
  | [] => []
  | c :: cs => strippedStrings c ++ strippedStringsList cs
end

/-- BeautifulSoup `get_text(strip=True)`: concatenation of the stripped
descendant strings. -/
def getTextStrip (n : Node) : String := String.join (strippedStrings n)

mutual
/-- All strict descendants of a node in document (pre-)order, BeautifulSoup
`.descendants`; both strings and tags are listed. -/
def descendantsOf : Node → List Node
  | .text _ => []
  | .elem _ _ cs => descendantsList cs
/-- Descendants of a forest: each root followed by its own descendants. -/
def descendantsList : List Node → List Node
  | [] => []
  | c :: cs => c :: descendantsOf c ++ descendantsList cs
end

/-- The position of a node in the tree: the node itself, its parent, the
following siblings of the parent and the own following siblings of the node.
`parentFollow` and `ownFollow` are what BeautifulSoup reaches through
`parent.next_siblings` and `next_siblings`. -/
structure Ctx where
  node : Node
  parent : Node
  parentFollow : List Node
  ownFollow : List Node
deriving DecidableEq

mutual
/-- All descendants of `n` satisfying `pred`, in document order, with their
positions; `follow` is the list of following siblings of `n` itself.
This is BeautifulSoup `find_all` enriched with the sibling information that
the sources access afterwards. -/
def ctxNode (pred : Node → Bool) (n : Node) (follow : List Node) : List Ctx :=
  match n with
  | .text _ => []
  | .elem t a cs => ctxChildren pred (.elem t a cs) follow cs
/-- Matching nodes of a forest of children of `parent`. -/
def ctxChildren (pred : Node → Bool) (parent : Node) (parentFollow : List Node) :
    List Node → List Ctx
  | [] => []
  | c :: rest =>
    (if pred c then [⟨c, parent, parentFollow, rest⟩] else [])
    ++ ctxNode pred c rest
    ++ ctxChildren pred parent parentFollow rest
end

/-- Plain `find_all`: the matching descendants without their positions. -/
def findAll (pred : Node → Bool) (n : Node) : List Node :=
  (ctxNode pred n []).map Ctx.node

/-- Attribute rendering for `str(soup)`. -/
def renderAttrs : List (String × String) → String
  | [] => ""
  | (k, v) :: rest => " " ++ k ++ "=\"" ++ v ++ "\"" ++ renderAttrs rest

mutual
/-- Serialization of a node, `str(tag)`.  Entity escaping is not modelled;
the documents this development evaluates contain no characters that
BeautifulSoup would escape. -/
def render : Node → String
  | .text s => s
  | .elem t attrs cs => "<" ++ t ++ renderAttrs attrs ++ ">" ++ renderChildren cs ++ "</" ++ t ++ ">"
/-- Serialization of a forest. -/
def renderChildren : List Node → String
  | [] => ""
  | c :: cs => render c ++ renderChildren cs
end

/-- Serialization of a parsed document, `str(soup)`: the root `[document]`
node prints its children only. -/
def serializeDoc : Node → String
  | .elem "[document]" _ cs => renderChildren cs
  | n => render n

/-! ### Section Analyzer (`src/utils/template_analyzer.py`) -/

/-- Check whether a text is an authoring placeholder wrapped in `(...)` or
`[...]` (`is_placeholder_text`). -/
def is_placeholder_text (text : String) : Bool :=
  if text = "" then false
  else
    let t := (pyStrip text).toList
    (['('].isPrefixOf t && [')'].isSuffixOf t) || (['['].isPrefixOf t && [']'].isSuffixOf t)

/-- A detected section candidate: the dict built by the analyzer.  Fields in
order: `name`, `type`, `header_element`, `content_element`,
`instruction_element`, `insert_after`, `confidence`.  Keys that a given
detector does not put into the dict are `none` (Python `dict.get` then
yields `None`). -/
structure SectionC where
  name : String
  type : String
  header_element : Node
  content_element : Option Node
  instruction_element : Option Node
  insert_after : Option Node
  confidence : String
deriving DecidableEq

/-- Gray-header test of `detect_table_based_sections`: the inline style,
lower-cased, contains one of the two fixed background colors. -/
def isGrayCell (cell : Node) : Bool :=
  let style := pyLower ((cell.attr "style").getD "")
  strContains style "background-color: #cccccc"
    || strContains style "background-color: rgb(204, 204, 204)"

/-- Sections of TABLE templates (`detect_table_based_sections`): every `td`
of every `tr` of every `table` whose style marks a gray header cell and
whose collapsed text is non-empty and shorter than 150 characters yields a
candidate; the content anchor is the next sibling `td`.  No deduplication
is applied. -/
def detect_table_based_sections (soup : Node) : List SectionC :=
  (findAll (Node.isTag "table") soup).flatMap fun table =>
    (findAll (Node.isTag "tr") table).flatMap fun row =>
      (ctxNode (Node.isTag "td") row []).flatMap fun cell =>
        if isGrayCell cell.node then
          let text := collapseWs (getTextStrip cell.node)
          if text ≠ "" ∧ text.length < 150 then
            [⟨text, "table", cell.node, cell.ownFollow.find? (Node.isTag "td"),
              none, none, "high"⟩]
          else []
        else []

/-- Report-title words that are never section headers. -/
def skip_titles : List String :=
  ["slutrapport", "månadsrapport", "rapport", "document", "report"]

/-- Sibling walk of the `strong` phase of `detect_text_based_sections`:
starting at the next sibling of the parent of the header, up to 5 siblings are
examined; a non-empty placeholder (text or element) is the instruction
element; a `strong` element or substantial content (more than 50
characters, not a placeholder) stops the walk. -/
def findInstruction : Nat → List Node → Option Node
  | _, [] => none
  | 0, _ => none
  | k + 1, e :: rest =>
    match e with
    | .text s =>
      let tc := pyStrip s
      if tc ≠ "" && is_placeholder_text tc then some e
      else findInstruction k rest
    | .elem _ _ _ =>
      let tc := getTextStrip e
      if tc ≠ "" && is_placeholder_text tc then some e
      else if e.isTag "strong" then none
      else if tc.length > 50 && !is_placeholder_text tc then none
      else findInstruction k rest

/-- Scan of the first three following siblings by `has_instruction_pattern`,
looking for a placeholder. -/
def hipScan : List Node → Bool × Option Node
  | [] => (false, none)
  | s :: rest =>
    match s with
    | .text str => if is_placeholder_text (pyStrip str) then (true, some s) else hipScan rest
    | .elem _ _ _ => if is_placeholder_text (getTextStrip s) then (true, some s) else hipScan rest

/-- `has_instruction_pattern`: the element itself, or one of its first three
following siblings, is a placeholder. -/
def has_instruction_pattern (e : Node) (ownFollow : List Node) : Bool × Option Node :=
  if is_placeholder_text (getTextStrip e) then (true, some e)
  else hipScan (ownFollow.take 3)

/-- Acceptance test of the `strong` phase (priority 1) of
`detect_text_based_sections`, everything except the seen-name check (which
`dedupPhase` performs, as the source does against `seen_names`). -/
def acceptStrong (c : Ctx) : Option SectionC :=
  let text := getTextStrip c.node
  if text = "" || text.length < 2 then none
  else if skip_titles.contains (pyLower text) then none
  else if is_placeholder_text text then none
  else if text.length < 150 then
    let instr := findInstruction 5 c.parentFollow
    let insAfter := match instr with | some e => e | none => c.parent
    some ⟨text, "text", c.node, none, instr, some insAfter,
      match instr with | some _ => "high" | none => "medium"⟩
  else none

/-- Acceptance test of the `font` phase (priority 2): a serif face or size 3,
text that is neither placeholder nor title, shorter than 150 characters. -/
def acceptFont (c : Ctx) : Option SectionC :=
  let face := (c.node.attr "face").getD ""
  let size := (c.node.attr "size").getD ""
  if strContains face "Times New Roman" || size = "3" then
    let text := getTextStrip c.node
    if is_placeholder_text text || text = "" || skip_titles.contains (pyLower text) then none
    else if text ≠ "" && text.length < 150 then
      let hip := has_instruction_pattern c.node c.ownFollow
      let insAfter := match hip.2 with | some e => e | none => c.node
      some ⟨text, "text", c.node, none, hip.2, some insAfter,
        if hip.1 then "high" else "medium"⟩
    else none
  else none

/-- Acceptance test of the `span` phase (priority 3): an inline style naming
the serif face and the 12pt size. -/
def acceptSpan (c : Ctx) : Option SectionC :=
  let style := (c.node.attr "style").getD ""
  if strContains style "Times New Roman" && strContains style "12pt" then
    let text := getTextStrip c.node
    if is_placeholder_text text || text = "" || skip_titles.contains (pyLower text) then none
    else if text ≠ "" && text.length < 150 then
      let hip := has_instruction_pattern c.node c.ownFollow
      let insAfter := match hip.2 with | some e => e | none => c.node
      some ⟨text, "text", c.node, none, hip.2, some insAfter,
        if hip.1 then "high" else "medium"⟩
    else none
  else none

/-- One detection phase of `detect_text_based_sections`: accepted candidates
are appended unless their name is already in `seen_names`; accepted names
are added to `seen_names`. -/
def dedupPhase (f : Ctx → Option SectionC) :
    List Ctx → List SectionC → List String → List SectionC × List String
  | [], acc, seen => (acc, seen)
  | c :: cs, acc, seen =>
    match f c with
    | none => dedupPhase f cs acc seen
    | some sec =>
      if sec.name ∈ seen then dedupPhase f cs acc seen
      else dedupPhase f cs (acc ++ [sec]) (seen ++ [sec.name])

/-- Sections of TEXT templates (`detect_text_based_sections`): the `strong`
phase; if it found nothing, the `font` phase; if still nothing, the `span`
phase.  All three share one `seen_names` set. -/
def detect_text_based_sections (soup : Node) : List SectionC :=
  let p1 := dedupPhase acceptStrong (ctxNode (Node.isTag "strong") soup []) [] []
  if !p1.1.isEmpty then p1.1
  else
    let p2 := dedupPhase acceptFont (ctxNode (Node.isTag "font") soup []) p1.1 p1.2
    if !p2.1.isEmpty then p2.1
    else (dedupPhase acceptSpan (ctxNode (Node.isTag "span") soup []) p2.1 p2.2).1

/-- Analysis result: fields `sections`, `template_type`, `total_sections`
(the `soup` entry of the source dict is the input tree itself and is not
repeated here). -/
structure AnalyzeResult where
  sections : List SectionC
  template_type : String
  total_sections : Nat
deriving DecidableEq

/-- Whole-template analysis (`analyze_template`): run both detectors and
classify the template shape from which of them found candidates. -/
def analyze_template (soup : Node) : AnalyzeResult :=
  let ts := detect_table_based_sections soup
  let xs := detect_text_based_sections soup
  if !ts.isEmpty && xs.isEmpty then ⟨ts, "table", ts.length⟩
  else if !xs.isEmpty && ts.isEmpty then ⟨xs, "text", xs.length⟩
  else if !ts.isEmpty && !xs.isEmpty then ⟨ts ++ xs, "mixed", (ts ++ xs).length⟩
  else ⟨[], "unknown", 0⟩

/-! ### String rewriting (Python `str.replace` and the `re.sub` calls of
`clean_up_html_spacing`) -/

/-- Literal pattern matcher: if `pat` is a prefix of the input, return the
remainder after it. -/
def litMatch (pat : List Char) (s : List Char) : Option (List Char) :=
  if pat.isPrefixOf s then some (s.drop pat.length) else none

/-- Left-to-right, non-overlapping scan-and-substitute: at every position
try the matcher; on a match emit the replacement and continue after the
match, otherwise keep the character.  This is the semantics shared by
Python `str.replace` and `re.sub` (with the matcher realising the leftmost
match of the pattern).  The fuel argument dominates the input length; every
matcher used here consumes at least one character. -/
def scanSub (m : List Char → Option (List Char)) (repl : List Char) :
    Nat → List Char → List Char
  | 0, s => s
  | _ + 1, [] => []
  | f + 1, c :: rest =>
    match m (c :: rest) with
    | some r => repl ++ scanSub m repl f r
    | none => c :: scanSub m repl f rest

/-- String-level substitution driver. -/
def pySub (m : List Char → Option (List Char)) (repl : String) (s : String) : String :=
  ⟨scanSub m repl.toList s.toList.length s.toList⟩

/-- Python `s.replace(pat, repl)` (all occurrences, left to right). -/
def pyReplace (s pat repl : String) : String := pySub (litMatch pat.toList) repl s

/-- Matcher for one `<br\s*/?>` tag followed by its greedy `\s*`, the
repeated group of the first three cleanup patterns. -/
def matchBrGroup (s : List Char) : Option (List Char) :=
  match litMatch "<br".toList s with
  | none => none
  | some r1 =>
    let r2 := r1.dropWhile isPySpace
    let r3 := match r2 with | '/' :: t => t | _ => r2
    match r3 with
    | '>' :: t => some (t.dropWhile isPySpace)
    | _ => none

/-- Greedy repetition of `matchBrGroup`: number of consecutive groups and
the remainder after the last one. -/
def manyBrGroups : Nat → List Char → Nat × List Char
  | 0, s => (0, s)
  | f + 1, s =>
    match matchBrGroup s with
    | none => (0, s)
    | some r => let p := manyBrGroups f r; (p.1 + 1, p.2)

/-- Matcher for the first cleanup pattern, the br-run regex: three or more
repetitions of the br group. -/
def matchBrRun (s : List Char) : Option (List Char) :=
  let p := manyBrGroups s.length s
  if 3 ≤ p.1 then some p.2 else none

/-- Matcher for `</div>\s*(<br\s*/?>\s*)+<div` (second cleanup pattern). -/
def matchDivBrDiv (s : List Char) : Option (List Char) :=
  match litMatch "</div>".toList s with
  | none => none
  | some r1 =>
    let r2 := r1.dropWhile isPySpace
    let p := manyBrGroups r2.length r2
    if 1 ≤ p.1 then litMatch "<div".toList p.2 else none

/-- Matcher for `(<br\s*/?>\s*)+</div>` (third cleanup pattern). -/
def matchBrCloseDiv (s : List Char) : Option (List Char) :=
  let p := manyBrGroups s.length s
  if 1 ≤ p.1 then litMatch "</div>".toList p.2 else none

/-- Matcher for `<tag[^>]*>\s*</tag>` (fourth and fifth cleanup patterns,
empty `div` and `span` wrappers). -/
def matchEmptyTag (tag : String) (s : List Char) : Option (List Char) :=
  match litMatch ("<" ++ tag).toList s with
  | none => none
  | some r1 =>
    match r1.dropWhile (fun c => !(c = '>')) with
    | '>' :: r2 => litMatch ("</" ++ tag ++ ">").toList (r2.dropWhile isPySpace)
    | _ => none

/-- Scan of a whitespace run for `matchBlankLines`: the count of newlines
seen (including the leading one) and the remainder just after the last
newline. -/
def blankRunScan : List Char → Nat → List Char → Nat × List Char
  | [], n, best => (n, best)
  | c :: t, n, best =>
    if c = '\n' then blankRunScan t (n + 1) t
    else if isPySpace c then blankRunScan t n best
    else (n, best)

/-- Matcher for `\n\s*\n\s*\n+` (sixth cleanup pattern).  The greedy match
starts at a newline and, when the whitespace run holds at least three
newlines, extends exactly to the character after the last newline of the
run. -/
def matchBlankLines (s : List Char) : Option (List Char) :=
  match s with
  | '\n' :: rest =>
    let p := blankRunScan rest 1 rest
    if 3 ≤ p.1 then some p.2 else none
  | _ => none

/-! ### Content Reconciler (`src/utils/template_mapper.py`) -/

/-- Final cleanup pass (`clean_up_html_spacing`): the six `re.sub`
substitutions of the source, applied to the serialized document string in
order. -/
def clean_up_html_spacing (html_content : String) : String :=
  let h1 := pySub matchBrRun "<br/><br/>" html_content
  let h2 := pySub matchDivBrDiv "</div><div" h1
  let h3 := pySub matchBrCloseDiv "</div>" h2
  let h4 := pySub (matchEmptyTag "div") "" h3
  let h5 := pySub (matchEmptyTag "span") "" h4
  pySub matchBlankLines "\n\n" h5

/-- Metadata substitution step of `map_bullets_to_template`: the four
literal replacements on the serialized template.  The source takes `today`
from `datetime.now().strftime(%Y-%m-%d)`; the current date is therefore
an input of the computation. -/
def substitute_metadata (today : String) (s : String) : String :=
  pyReplace (pyReplace (pyReplace (pyReplace s "[Dagens datum]" today)
    "[Förnamn]" "") "[Efternamn]" "") "[Personnummer]" ""

/-- Candidate set used for matching after the metadata substitution
(`map_bullets_to_template`, the re-detection block): only the `table` and
`text` template types re-run their detector on the substituted tree; every
other type keeps the previously computed sections. -/
def sectionsUsed (template_type : String) (sections : List SectionC) (soup : Node) :
    List SectionC :=
  if template_type = "table" then detect_table_based_sections soup
  else if template_type = "text" then detect_text_based_sections soup
  else sections

/-- Normalization used by the matcher,
`re.sub(r'\s+', ' ', name.lower().strip())`. -/
def pyNormName (s : String) : String := collapseWs (pyStrip (pyLower s))

/-- Exact strategy of `map_bullets_to_template`: bullets of the first key
whose normalized name equals the normalized section name. -/
def exactBullets (section_name : String) (dict : List (String × List String)) :
    List String :=
  match dict.find? (fun kv => pyNormName kv.1 == pyNormName section_name) with
  | some kv => kv.2
  | none => []

/-- DirectKey strategy: `dict.get(section_name)`, the bullets of the raw key
equal to the section name. -/
def directBullets (section_name : String) (dict : List (String × List String)) :
    List String :=
  match dict.find? (fun kv => kv.1 == section_name) with
  | some kv => kv.2
  | none => []

/-- Substring strategy: bullets of the first key containing the normalized
section name (the key lower-cased but not normalized, as in the source) or
contained in it. -/
def partialBullets (section_name : String) (dict : List (String × List String)) :
    List String :=
  match dict.find? (fun kv =>
    strContains (pyLower kv.1) (pyNormName section_name) ||
    strContains (pyNormName section_name) (pyLower kv.1)) with
  | some kv => kv.2
  | none => []

/-- Bullet lookup of `map_bullets_to_template`: the Exact, DirectKey and
Substring strategies in that order.  An empty bullet list is falsy in
Python, so a strategy that matched a key holding `[]` falls through to the
next strategy; the final result `[]` means "unmatched".  The dict is an
insertion-ordered association list, as a Python dict is. -/
def findMatchedBullets (section_name : String) (dict : List (String × List String)) :
    List String :=
  if !(exactBullets section_name dict).isEmpty then exactBullets section_name dict
  else if !(directBullets section_name dict).isEmpty then directBullets section_name dict
  else partialBullets section_name dict

/-- Placeholder vocabulary of the content check in `map_bullets_to_template`
(includes the empty string, which the loop also rejects via truthiness). -/
def mapper_placeholder_texts : List String :=
  ["", "information saknas", "information missing", "ingen information",
   "no information", "saknas", "missing", "n/a", "none", "nej", "no"]

/-- Placeholder vocabulary of the bullet filter in `map_text_section`. -/
def text_placeholder_texts : List String :=
  ["information saknas", "information missing", "ingen information",
   "no information", "saknas", "missing", "n/a", "none", "nej", "no"]

/-- A bullet has real content when, stripped and lower-cased, it is
non-empty and not in the placeholder vocabulary. -/
def bulletHasContent (b : String) : Bool :=
  let t := pyLower (pyStrip b)
  t ≠ "" && !mapper_placeholder_texts.contains t

/-- Content check of `map_bullets_to_template`: some bullet of the matched
block has real content. -/
def has_content (matched : List String) : Bool := matched.any bulletHasContent

/-- Bullet filter of `map_text_section`. -/
def filtered_bullets (bs : List String) : List String :=
  bs.filter fun b =>
    let t := pyLower (pyStrip b)
    t ≠ "" && !text_placeholder_texts.contains t

/-- Inline emphasis substitution on one bullet (`create_bullet_html`): the
highlight marker pair becomes a styled span. -/
def bulletInnerHtml (b : String) : String :=
  pyReplace (pyReplace b "\x7b\x7bHIGHLIGHT\x7d\x7d"
      "<span style=\"background:#fbbf24;padding:2px 6px;border-radius:3px;\">")
    "\x7b\x7b/HIGHLIGHT\x7d\x7d" "</span>"

/-- One rendered list item of `create_bullet_html`.  The source parses the
bullet fragment with `html.parser` before appending; the fragment is
modelled as the raw child string, which leaves the number of `li` items
unchanged. -/
def bullet_li (b : String) : Node :=
  Node.elem "li" [("style", "margin-bottom:8px;")] [Node.text (bulletInnerHtml b)]

/-- Bullet list construction (`create_bullet_html`): a styled `ul` with one
styled `li` per bullet.  Bullets are modelled as strings (the
nested-list join branch of the source applies to non-string payloads
only). -/
def create_bullet_html (bullets : List String) : Node :=
  Node.elem "ul"
    [("style", "list-style:disc;padding-left:25px;line-height:1.8;margin:10px 0;")]
    (bullets.map bullet_li)

/-- Number of `li` children of a node. -/
def liCount : Node → Nat
  | .elem _ _ cs => (cs.filter (Node.isTag "li")).length
  | .text _ => 0

/-- The bullet lists (`ul` elements) of a subtree, the node included. -/
def bulletLists (n : Node) : List Node := (n :: descendantsOf n).filter (Node.isTag "ul")

/-- Insertion performed by `map_table_section`: with a present content cell
and a non-empty bullet list, the cell is cleared and receives exactly the
list built from ALL the matched bullets; otherwise the function returns
without touching the document.  The returned value is the inserted list,
`none` when nothing was inserted. -/
def map_table_section_list (content_element : Option Node) (section_bullets : List String) :
    Option Node :=
  match content_element with
  | none => none
  | some _ =>
    if section_bullets.isEmpty then none
    else some (create_bullet_html section_bullets)

/-- Insertion performed by `map_text_section`: with a non-empty bullet list
whose placeholder-filtered form is non-empty, a styled `div` wrapping the
list built from the FILTERED bullets is inserted after the parent
container; otherwise nothing is inserted.  The returned value is the
inserted block, `none` when nothing was inserted. -/
def map_text_section_list (section_bullets : List String) : Option Node :=
  if section_bullets.isEmpty then none
  else
    let f := filtered_bullets section_bullets
    if f.isEmpty then none
    else some (Node.elem "div" [("style", "margin:15px 0 25px 0;")] [create_bullet_html f])

/-- The two ways the per-section dispatch of `map_bullets_to_template` can
go. -/
inductive MapPath where
  | fill
  | remove
deriving DecidableEq

/-- Per-section dispatch of `map_bullets_to_template`: fill when the matched
bullets have real content, remove otherwise. -/
def section_path (section_name : String) (dict : List (String × List String)) : MapPath :=
  if has_content (findMatchedBullets section_name dict) then .fill else .remove

/-- What happened to one section by the end of the run. -/
inductive Outcome where
  | filled
  | removed
  | untouched
deriving DecidableEq

/-- End state of one section under `map_bullets_to_template`.  On the fill
path the insertion functions above decide whether a list really entered the
document; on the remove path `remove_table_section` deletes the row
returned by `find_parent(tr)` (supplied here as `parent_row`, since a
candidate record stores no upward links) and returns without effect when
there is none, while `remove_text_section` always deletes the
container of the header (or the header itself). -/
def process_section (stype : String) (content_element : Option Node)
    (parent_row : Option Node) (matched : List String) : Outcome :=
  if has_content matched then
    if stype = "table" then
      match map_table_section_list content_element matched with
      | some _ => .filled
      | none => .untouched
    else
      match map_text_section_list matched with
      | some _ => .filled
      | none => .untouched
  else
    if stype = "table" then
      match parent_row with
      | some _ => .removed
      | none => .untouched
    else .removed

/-- First descendant `strong` check in the fill sweep of `map_text_section`
(`check_elem.find` of the first `strong` followed by the upper-case header test). -/
def hasInnerHeader (e : Node) : Bool :=
  match (descendantsOf e).find? (Node.isTag "strong") with
  | some st =>
    let t := getTextStrip st
    t ≠ "" && t.length > 3 && pyIsUpper t
  | none => false

/-- Verdict of the descendant scan a `div`/`p` sibling undergoes in the fill
sweep. -/
inductive DescVerdict where
  | remove
  | stop
  | keep
deriving DecidableEq

/-- Descendant scan of `map_text_section` for a `div`/`p` sibling: walk the
descendants; a non-empty placeholder string records placeholder content; a
stripped string longer than 5 characters, or an upper-case `strong` header,
is real content and breaks.  Placeholder-only content removes the sibling,
real content stops the whole sweep, neither keeps it. -/
def descScan : List Node → Bool → DescVerdict
  | [], hasPh => if hasPh then .remove else .keep
  | d :: rest, hasPh =>
    match d with
    | .text s =>
      let dt := pyStrip s
      if dt = "" then descScan rest hasPh
      else if is_placeholder_text dt then descScan rest true
      else if dt.length > 5 then .stop
      else descScan rest hasPh
    | .elem _ _ _ =>
      if d.isTag "strong" then
        let dtext := getTextStrip d
        if dtext ≠ "" && pyIsUpper dtext && dtext.length > 3 then .stop
        else descScan rest hasPh
      else descScan rest hasPh

/-- What one loop iteration of a forward placeholder sweep does with the
sibling at hand: mark it for removal, leave it and continue, or break out
of the loop. -/
inductive SweepAct where
  | collect
  | skip
  | halt
deriving DecidableEq

/-- A bounded forward sweep: while fewer than `limit` checks have been made,
classify each sibling with `step` and collect the ones marked for removal,
stopping early on `halt`.  This is the shape of the two `while check_elem
and checked_count < N` loops of the mapper; the first argument is the
number of checks already made. -/
def boundedSweep (limit : Nat) (step : Node → SweepAct) : Nat → List Node → List Node
  | _, [] => []
  | c, e :: rest =>
    if c < limit then
      match step e with
      | .collect => e :: boundedSweep limit step (c + 1) rest
      | .skip => boundedSweep limit step (c + 1) rest
      | .halt => []
    else []

/-- Loop body of the fill-path sweep of `map_text_section`: an upper-case
`strong` header, a `div`/`p` containing one, or a `div`/`p` with real
content stops the walk; a non-empty placeholder (text or element) and a
placeholder-only `div`/`p` are marked for removal; everything else is left
alone. -/
def fillSweepStep (e : Node) : SweepAct :=
  match e with
  | .text s =>
    let t := pyStrip s
    if t ≠ "" && is_placeholder_text t then .collect else .skip
  | .elem _ _ _ =>
    let text := getTextStrip e
    if e.isTag "strong" && (text ≠ "" && text.length > 3 && pyIsUpper text) then .halt
    else if (e.isTag "p" || e.isTag "div") && hasInnerHeader e then .halt
    else if text ≠ "" && is_placeholder_text text then .collect
    else if e.isTag "div" || e.isTag "p" then
      match descScan (descendantsOf e) false with
      | .remove => .collect
      | .stop => .halt
      | .keep => .skip
    else .skip

/-- Fill-path sweep (`map_text_section`, `max_check = 20`) over the siblings
following the insertion point.  The first sibling is the freshly inserted
content block itself, which the source loop skips by identity while still
counting it: the walk over the pre-existing siblings therefore starts with
one check already made. -/
def sweepFill (sibs : List Node) : List Node := boundedSweep 20 fillSweepStep 1 sibs

/-- Loop body of the remove-path sweep of `remove_text_section`: empty or
placeholder nodes are marked for removal; a non-empty, non-placeholder
`strong`/`h1`/`h2` stops the walk. -/
def removeSweepStep (e : Node) : SweepAct :=
  match e with
  | .text s =>
    let t := pyStrip s
    if t = "" || is_placeholder_text t then .collect else .skip
  | .elem _ _ _ =>
    let t := getTextStrip e
    if t = "" || is_placeholder_text t then .collect
    else if e.isTag "strong" || e.isTag "h1" || e.isTag "h2" then .halt
    else .skip

/-- Remove-path sweep (`remove_text_section`, bound 10) over the siblings
following the container of the header. -/
def sweepRemove (sibs : List Node) : List Node := boundedSweep 10 removeSweepStep 0 sibs

/-! ### The TokenOverlap strategy, as the specification words it

The specification lists a fourth matching strategy that has no counterpart
anywhere in the source; it is modelled here from the specification text
alone, to be compared against the matcher translated from the source. -/

/-- Modelled from the spec: diacritic folding used by the TokenOverlap
matching strategy (no such folding exists in `src/utils/template_mapper.py`). -/
def diacriticFold (c : Char) : Char :=
  if c = 'å' ∨ c = 'ä' then 'a'
  else if c = 'ö' then 'o'
  else if c = 'é' then 'e'
  else if c = 'ü' then 'u'
  else c

/-- Modelled from the spec: the small conjunction/preposition stopword set
of the TokenOverlap matching strategy. -/
def specStopwords : List String :=
  ["och", "eller", "i", "på", "av", "för", "med", "till",
   "and", "or", "of", "in", "for", "with", "to"]

/-- Whitespace tokenization helper: the first argument is the reversed
current word. -/
def wordsOfAux : List Char → List Char → List String
  | acc, [] => if acc.isEmpty then [] else [⟨acc.reverse⟩]
  | acc, c :: rest =>
    if isPySpace c then
      if acc.isEmpty then wordsOfAux [] rest
      else ⟨acc.reverse⟩ :: wordsOfAux [] rest
    else wordsOfAux (c :: acc) rest

/-- Whitespace tokenization of a (already normalized) string. -/
def wordsOf (l : List Char) : List String := wordsOfAux [] l

/-- Modelled from the spec: the token set of one name under the TokenOverlap
matching strategy — normalize, tokenize, diacritic-fold, drop stopwords. -/
def specTokens (s : String) : List String :=
  (((wordsOf (pyNormName s).toList).map (fun t => (⟨t.toList.map diacriticFold⟩ : String))).filter
    (fun t => t ≠ "" && !specStopwords.contains t)).dedup

/-- Modelled from the spec: the Jaccard-style overlap of the two token sets,
scaled to the range 0..70. -/
def tokenOverlapScore (a b : String) : Nat :=
  let sa := specTokens a
  let sb := specTokens b
  let inter := sa.filter (fun t => t ∈ sb)
  let union := sa ++ sb.filter (fun t => t ∉ sa)
  if union.length = 0 then 0 else 70 * inter.length / union.length

/-! ### General lemmas about the embedded operations -/

/-- A bounded sweep never looks past its remaining budget: the result is
determined by the first `limit - c` siblings. -/
theorem boundedSweep_take (limit : Nat) (step : Node → SweepAct) :
    ∀ (sibs : List Node) (c : Nat),
      boundedSweep limit step c sibs = boundedSweep limit step c (sibs.take (limit - c)) := by
  intro sibs
  induction sibs with
  | nil => intro c; simp
  | cons e rest ih =>
    intro c
    by_cases hc : c < limit
    · have hs : limit - c = (limit - (c + 1)) + 1 := by omega
      rw [hs, List.take_succ_cons]
      simp only [boundedSweep, hc, if_true]
      cases step e
      · exact congrArg _ (ih (c + 1))
      · exact ih (c + 1)
      · rfl
    · have hs : limit - c = 0 := by omega
      rw [hs, List.take_zero]
      simp [boundedSweep, hc]

/-- Everything a bounded sweep collects is one of the walked siblings. -/
theorem boundedSweep_subset (limit : Nat) (step : Node → SweepAct) :
    ∀ (sibs : List Node) (c : Nat), boundedSweep limit step c sibs ⊆ sibs := by
  intro sibs
  induction sibs with
  | nil => intro c; simp [boundedSweep]
  | cons e rest ih =>
    intro c
    by_cases hc : c < limit
    · simp only [boundedSweep, hc, if_true]
      cases step e
      · exact List.cons_subset_cons e (ih (c + 1))
      · exact (ih (c + 1)).trans (List.subset_cons_self e rest)
      · exact List.nil_subset _
    · simp [boundedSweep, hc]

/-- When no suffix of the input matches, a scan-and-substitute pass copies
its input unchanged. -/
theorem scanSub_nomatch (m : List Char → Option (List Char)) (repl : List Char) :
    ∀ (s : List Char), (∀ t, t <:+ s → m t = none) → ∀ f, scanSub m repl f s = s := by
  intro s
  induction s with
  | nil => intro _ f; cases f <;> rfl
  | cons c rest ih =>
    intro h f
    cases f with
    | zero => rfl
    | succ f =>
      have hm : m (c :: rest) = none := h _ (List.suffix_refl _)
      simp only [scanSub, hm]
      exact congrArg _ (ih (fun t ht => h t (ht.trans (List.suffix_cons c rest))) f)

/-- Decidable form of "no suffix of `s` matches `m`". -/
def noMatchAll (m : List Char → Option (List Char)) (s : String) : Bool :=
  s.toList.tails.all (fun t => (m t).isNone)

/-- String-level corollary of `scanSub_nomatch`. -/
theorem pySub_nomatch (m : List Char → Option (List Char)) (repl : String) (s : String)
    (h : noMatchAll m s = true) : pySub m repl s = s := by
  have hs : ∀ t, t <:+ s.toList → m t = none := by
    intro t ht
    have := List.all_eq_true.mp h t ((List.mem_tails _ _).mpr ht)
    exact Option.isNone_iff_eq_none.mp this
  show (⟨scanSub m repl.toList s.toList.length s.toList⟩ : String) = s
  rw [scanSub_nomatch m repl.toList s.toList hs]
  rfl

/-- The bullet filter of `map_text_section` accepts exactly the bullets the
content check of `map_bullets_to_template` counts as real content (the only
difference between the two placeholder lists is the empty string, which
both paths reject). -/
theorem filtered_bullets_eq (bs : List String) :
    filtered_bullets bs = bs.filter bulletHasContent := by
  unfold filtered_bullets
  congr 1
  funext b
  simp only [bulletHasContent, mapper_placeholder_texts, text_placeholder_texts]
  by_cases ht : pyLower (pyStrip b) = ""
  · simp [ht]
  · have hbeq : (pyLower (pyStrip b) == "") = false := by simpa using ht
    simp [ht, List.contains_cons, hbeq]

/-- Every child of a constructed bullet list is an `li` item. -/
theorem li_filter (bs : List String) :
    (bs.map bullet_li).filter (Node.isTag "li") = bs.map bullet_li := by
  induction bs with
  | nil => rfl
  | cons b rest ih => simp [bullet_li, Node.isTag, ih]

/-- A constructed bullet list renders one item per bullet. -/
theorem liCount_create (bs : List String) :
    liCount (create_bullet_html bs) = bs.length := by
  simp [create_bullet_html, liCount, li_filter]

/-- The descendants of a constructed bullet list contain no nested list. -/
theorem create_descendants_no_ul (bs : List String) :
    (descendantsList (bs.map bullet_li)).filter (Node.isTag "ul") = [] := by
  induction bs with
  | nil => rfl
  | cons b rest ih =>
    simp [bullet_li, descendantsList, descendantsOf, Node.isTag, ih]

/-- A constructed bullet list is exactly one list. -/
theorem bulletLists_create (bs : List String) :
    bulletLists (create_bullet_html bs) = [create_bullet_html bs] := by
  simp [bulletLists, create_bullet_html, descendantsOf, Node.isTag,
    create_descendants_no_ul bs]

/-- Wrapping a node in a `div` block adds no bullet list. -/
theorem bulletLists_div_wrap (attrs : List (String × String)) (u : Node) :
    bulletLists (Node.elem "div" attrs [u]) = bulletLists u := by
  simp [bulletLists, descendantsOf, descendantsList, Node.isTag]

/-- Invariant of one deduplicating detection phase: starting from an
accumulator whose names are all recorded as seen and pairwise distinct, the
phase keeps every accumulated name recorded and the name list duplicate
free. -/
theorem dedupPhase_inv (f : Ctx → Option SectionC) :
    ∀ (xs : List Ctx) (acc : List SectionC) (seen : List String),
      (∀ s ∈ acc, s.name ∈ seen) → ((acc.map SectionC.name).Nodup) →
      (∀ s ∈ (dedupPhase f xs acc seen).1, s.name ∈ (dedupPhase f xs acc seen).2) ∧
      ((dedupPhase f xs acc seen).1.map SectionC.name).Nodup := by
  intro xs
  induction xs with
  | nil => intro acc seen h1 h2; exact ⟨h1, h2⟩
  | cons c cs ih =>
    intro acc seen h1 h2
    simp only [dedupPhase]
    cases f c with
    | none => exact ih acc seen h1 h2
    | some sec =>
      by_cases hseen : sec.name ∈ seen
      · simp only [hseen, if_true]
        exact ih acc seen h1 h2
      · simp only [hseen, if_false]
        apply ih
        · intro s hs
          rcases List.mem_append.mp hs with h | h
          · exact List.mem_append_left _ (h1 s h)
          · simp only [List.mem_singleton] at h
            subst h
            exact List.mem_append_right _ (List.mem_singleton.mpr rfl)
        · rw [List.map_append]
          apply List.Nodup.append h2 (List.nodup_singleton _)
          intro a ha hb
          simp only [List.map_cons, List.map_nil, List.mem_singleton] at hb
          subst hb
          rcases List.mem_map.mp ha with ⟨s, hs, hname⟩
          exact hseen (hname ▸ h1 s hs)

/-! ### Concrete documents used by the counterexamples and witnesses -/

/-- A post-substitution document with one `strong` text section. -/
def c1post : Node :=
  .elem "[document]" [] [.elem "p" [] [.elem "strong" [] [.text "Mål"]]]

/-- A document with one well-formed gray-header table section. -/
def c1tdoc : Node :=
  .elem "[document]" []
    [.elem "table" [] [.elem "tr" []
      [.elem "td" [("style", "background-color: #cccccc")] [.text "Hälsa"],
       .elem "td" [] []]]]

/-- C1 counterexample: for the `mixed` (and `unknown`) template type the
candidates used for matching are the pre-substitution ones, not a
re-analysis of the substituted document; with an empty pre-substitution set
and a substituted document in which the analyzer finds a section, the used
set and the analyzer result differ. -/
theorem C1_counterexample :
    sectionsUsed "mixed" [] c1post = [] ∧
    (analyze_template c1post).sections ≠ [] := by
  constructor
  · rfl
  · decide

/-- C1 (amended): after the metadata substitution the detector is re-run on
the substituted tree only for the `table` and `text` template types (where
the candidate set used coincides with the analyzer result for a document of
that type); for `mixed` and `unknown` the pre-substitution candidates are
kept unchanged. -/
theorem C1_amended (pre : List SectionC) (post : Node) :
    ((analyze_template post).template_type = "table" →
      sectionsUsed "table" pre post = (analyze_template post).sections) ∧
    ((analyze_template post).template_type = "text" →
      sectionsUsed "text" pre post = (analyze_template post).sections) ∧
    sectionsUsed "mixed" pre post = pre ∧
    sectionsUsed "unknown" pre post = pre := by
  by_cases h1 : (detect_table_based_sections post).isEmpty = true <;>
    by_cases h2 : (detect_text_based_sections post).isEmpty = true <;>
      simp [analyze_template, sectionsUsed, h1, h2]

/-- C1 witness: a concrete table-type document on which the first clause of
the amended statement applies. -/
theorem C1_amended_witness :
    sectionsUsed "table" [] c1tdoc = (analyze_template c1tdoc).sections :=
  (C1_amended [] c1tdoc).1 (by decide)

/-- A content cell for the C2 counterexample. -/
def c2cell : Node := .elem "td" [] []

/-- Matched bullets with one real and one placeholder entry. -/
def c2bullets : List String := ["Patienten mår bra", "n/a"]

/-- C2 counterexample: on the table fill path the inserted list renders ALL
bullets of the matched block, so with one real bullet and one placeholder
bullet the list has 2 items while only 1 bullet is content-valid. -/
theorem C2_counterexample :
    map_table_section_list (some c2cell) c2bullets = some (create_bullet_html c2bullets) ∧
    liCount (create_bullet_html c2bullets) = 2 ∧
    (c2bullets.filter bulletHasContent).length = 1 ∧
    liCount (create_bullet_html c2bullets) ≠ (c2bullets.filter bulletHasContent).length := by
  refine ⟨rfl, by decide, by decide, by decide⟩

/-- C2 (amended): for a section on the fill path exactly one list is
inserted; for a text section its item count equals the number of
content-valid bullets of the matched block (placeholders excluded), while
for a table section with a content cell the item count equals the total
number of bullets of the matched block, placeholders included. -/
theorem C2_amended (cell : Node) (bs : List String) (h : has_content bs = true) :
    (map_text_section_list bs =
        some (Node.elem "div" [("style", "margin:15px 0 25px 0;")]
          [create_bullet_html (filtered_bullets bs)]) ∧
      bulletLists (Node.elem "div" [("style", "margin:15px 0 25px 0;")]
          [create_bullet_html (filtered_bullets bs)]) =
        [create_bullet_html (filtered_bullets bs)] ∧
      liCount (create_bullet_html (filtered_bullets bs)) = (bs.filter bulletHasContent).length) ∧
    (map_table_section_list (some cell) bs = some (create_bullet_html bs) ∧
      bulletLists (create_bullet_html bs) = [create_bullet_html bs] ∧
      liCount (create_bullet_html bs) = bs.length) := by
  have hne : bs ≠ [] := by
    intro hh
    rw [hh] at h
    simp [has_content] at h
  have hbs : bs.isEmpty = false := by
    cases bs with
    | nil => exact absurd rfl hne
    | cons a l => rfl
  have hfe : filtered_bullets bs = bs.filter bulletHasContent := filtered_bullets_eq bs
  have hfne : (filtered_bullets bs).isEmpty = false := by
    rw [hfe]
    rcases List.any_eq_true.mp h with ⟨b, hb, hpb⟩
    have : b ∈ bs.filter bulletHasContent := List.mem_filter.mpr ⟨hb, hpb⟩
    cases hfil : bs.filter bulletHasContent with
    | nil => rw [hfil] at this; simp at this
    | cons a l => rfl
  refine ⟨⟨?_, ?_, ?_⟩, ?_, ?_, ?_⟩
  · simp [map_text_section_list, hbs, hfne]
  · rw [bulletLists_div_wrap, bulletLists_create]
  · rw [liCount_create, hfe]
  · simp [map_table_section_list, hbs]
  · exact bulletLists_create bs
  · exact liCount_create bs

/-- C2 witness: the table clause of the amended statement at a concrete
one-bullet block. -/
theorem C2_amended_witness :
    map_table_section_list (some c2cell) ["Patienten mår bra"] =
      some (create_bullet_html ["Patienten mår bra"]) :=
  (C2_amended c2cell ["Patienten mår bra"] (by decide)).2.1

/-- A successful Exact strategy returns the bullets of a dict entry whose
normalized name equals the normalized section name. -/
theorem exactBullets_spec (s : String) (d : List (String × List String))
    (h : exactBullets s d ≠ []) :
    ∃ kv ∈ d, exactBullets s d = kv.2 ∧ pyNormName kv.1 = pyNormName s := by
  unfold exactBullets at h ⊢
  cases he : d.find? (fun kv => pyNormName kv.1 == pyNormName s) with
  | none => rw [he] at h; exact absurd rfl h
  | some kv =>
    have hpred := List.find?_some he
    exact ⟨kv, List.mem_of_find?_eq_some he, rfl, eq_of_beq hpred⟩

/-- A successful DirectKey strategy returns the bullets of the raw key. -/
theorem directBullets_spec (s : String) (d : List (String × List String))
    (h : directBullets s d ≠ []) :
    ∃ kv ∈ d, directBullets s d = kv.2 ∧ kv.1 = s := by
  unfold directBullets at h ⊢
  cases he : d.find? (fun kv => kv.1 == s) with
  | none => rw [he] at h; exact absurd rfl h
  | some kv =>
    have hpred := List.find?_some he
    exact ⟨kv, List.mem_of_find?_eq_some he, rfl, eq_of_beq hpred⟩

/-- A successful Substring strategy returns the bullets of an entry related
to the section name by containment. -/
theorem partialBullets_spec (s : String) (d : List (String × List String))
    (h : partialBullets s d ≠ []) :
    ∃ kv ∈ d, partialBullets s d = kv.2 ∧
      (strContains (pyLower kv.1) (pyNormName s) = true ∨
       strContains (pyNormName s) (pyLower kv.1) = true) := by
  unfold partialBullets at h ⊢
  cases he : d.find? (fun kv =>
      strContains (pyLower kv.1) (pyNormName s) ||
      strContains (pyNormName s) (pyLower kv.1)) with
  | none => rw [he] at h; exact absurd rfl h
  | some kv =>
    have hpred := List.find?_some he
    exact ⟨kv, List.mem_of_find?_eq_some he, rfl, Bool.or_eq_true_iff.mp hpred⟩

/-- The three name relations the matcher of `map_bullets_to_template`
actually implements: normalized equality (Exact), raw key equality
(DirectKey), and substring containment either way (Substring). -/
def matchRelated (section_name : String) (kv : String × List String) : Prop :=
  pyNormName kv.1 = pyNormName section_name ∨ kv.1 = section_name ∨
  strContains (pyLower kv.1) (pyNormName section_name) = true ∨
  strContains (pyNormName section_name) (pyLower kv.1) = true

instance matchRelatedDecidable (s : String) (kv : String × List String) :
    Decidable (matchRelated s kv) := by
  unfold matchRelated
  infer_instance

/-- A one-entry block map whose key holds exactly the tokens of the section
name, in the opposite order. -/
def c3dict : List (String × List String) := [("Välmående Hälsa", ["Patienten mår bra"])]

/-- C3 counterexample: the section name and the block key have identical
token sets, so the TokenOverlap strategy described by the claim scores
70 ≥ 50 and would accept; the code has no such strategy — the matcher
returns nothing and the section takes the removal path. -/
theorem C3_counterexample :
    tokenOverlapScore "Hälsa Välmående" "Välmående Hälsa" = 70 ∧
    50 ≤ tokenOverlapScore "Hälsa Välmående" "Välmående Hälsa" ∧
    findMatchedBullets "Hälsa Välmående" c3dict = [] ∧
    section_path "Hälsa Välmående" c3dict = .remove := by
  refine ⟨by decide, by decide, by decide, by decide⟩

/-- C3 (amended): matching tries Exact (normalized equality), DirectKey
(raw key equality) and Substring (containment either way) in that order and
stops at the first success that yields non-empty bullets; there is no
TokenOverlap strategy and no numeric score or acceptance threshold.  An
Exact hit with non-empty bullets always wins, every successful match comes
from one of the three relations, and a section related to no key is
unmatched and takes the removal path. -/
theorem C3_amended (section_name : String) (dict : List (String × List String)) :
    (exactBullets section_name dict ≠ [] →
       findMatchedBullets section_name dict = exactBullets section_name dict) ∧
    (findMatchedBullets section_name dict ≠ [] →
       ∃ kv ∈ dict, findMatchedBullets section_name dict = kv.2 ∧
         matchRelated section_name kv) ∧
    ((∀ kv ∈ dict, ¬ matchRelated section_name kv) →
       findMatchedBullets section_name dict = [] ∧
       section_path section_name dict = .remove) := by
  refine ⟨?_, ?_, ?_⟩
  · intro hne
    have he : (exactBullets section_name dict).isEmpty = false := by
      cases hh : exactBullets section_name dict with
      | nil => exact absurd hh hne
      | cons a l => rfl
    unfold findMatchedBullets
    rw [he]
    rfl
  · intro hne
    unfold findMatchedBullets at hne ⊢
    by_cases he : (exactBullets section_name dict).isEmpty
    · by_cases hd : (directBullets section_name dict).isEmpty
      · simp only [he, hd, Bool.not_true, if_false] at hne ⊢
        rcases partialBullets_spec section_name dict hne with ⟨kv, hkv, heq, hrel⟩
        exact ⟨kv, hkv, heq, Or.inr (Or.inr hrel)⟩
      · have hd2 : (directBullets section_name dict).isEmpty = false := by
          cases hh : (directBullets section_name dict).isEmpty
          · rfl
          · exact absurd hh hd
        simp only [he, hd2, Bool.not_true, Bool.not_false, if_false, if_true] at hne ⊢
        have hdne : directBullets section_name dict ≠ [] := by
          intro hh
          rw [hh] at hd2
          simp at hd2
        rcases directBullets_spec section_name dict hdne with ⟨kv, hkv, heq, hrel⟩
        exact ⟨kv, hkv, heq, Or.inr (Or.inl hrel)⟩
    · have he2 : (exactBullets section_name dict).isEmpty = false := by
        cases hh : (exactBullets section_name dict).isEmpty
        · rfl
        · exact absurd hh he
      simp only [he2, Bool.not_false, if_true] at hne ⊢
      have hene : exactBullets section_name dict ≠ [] := by
        intro hh
        rw [hh] at he2
        simp at he2
      rcases exactBullets_spec section_name dict hene with ⟨kv, hkv, heq, hrel⟩
      exact ⟨kv, hkv, heq, Or.inl hrel⟩
  · intro hall
    have he : exactBullets section_name dict = [] := by
      unfold exactBullets
      have : dict.find? (fun kv => pyNormName kv.1 == pyNormName section_name) = none := by
        rw [List.find?_eq_none]
        intro kv hkv hc
        exact hall kv hkv (Or.inl (eq_of_beq hc))
      rw [this]
    have hd : directBullets section_name dict = [] := by
      unfold directBullets
      have : dict.find? (fun kv => kv.1 == section_name) = none := by
        rw [List.find?_eq_none]
        intro kv hkv hc
        exact hall kv hkv (Or.inr (Or.inl (eq_of_beq hc)))
      rw [this]
    have hp : partialBullets section_name dict = [] := by
      unfold partialBullets
      have : dict.find? (fun kv =>
          strContains (pyLower kv.1) (pyNormName section_name) ||
          strContains (pyNormName section_name) (pyLower kv.1)) = none := by
        rw [List.find?_eq_none]
        intro kv hkv hc
        rcases Bool.or_eq_true_iff.mp hc with hc1 | hc2
        · exact hall kv hkv (Or.inr (Or.inr (Or.inl hc1)))
        · exact hall kv hkv (Or.inr (Or.inr (Or.inr hc2)))
      rw [this]
    have hmain : findMatchedBullets section_name dict = [] := by
      unfold findMatchedBullets
      rw [he, hd, hp]
      rfl
    refine ⟨hmain, ?_⟩
    unfold section_path
    rw [hmain]
    rfl

/-- A one-entry block map unrelated to the section name. -/
def c3dict2 : List (String × List String) := [("Boende", ["Egen lägenhet"])]

/-- C3 witness: a concrete instance of the no-relation clause of the
amended statement. -/
theorem C3_amended_witness :
    findMatchedBullets "Hälsa" c3dict2 = [] ∧
    section_path "Hälsa" c3dict2 = .remove :=
  (C3_amended "Hälsa" c3dict2).2.2 (by decide)

/-- A table row holding only a gray header cell, with no content cell. -/
def c4row : Node :=
  .elem "tr" [] [.elem "td" [("style", "background-color: #cccccc")] [.text "Hälsa"]]

/-- A document containing that contentless table section. -/
def c4doc : Node := .elem "[document]" [] [.elem "table" [] [c4row]]

/-- C4 counterexample: a table section whose header cell has no next-sibling
content cell is detected with an empty content anchor, and on the fill path
(real content matched) `map_table_section` returns without inserting
anything while the header row is also not removed — the section ends the
run neither filled nor removed. -/
theorem C4_counterexample :
    (detect_table_based_sections c4doc).map SectionC.content_element = [none] ∧
    has_content ["Patienten mår bra"] = true ∧
    process_section "table" none (some c4row) ["Patienten mår bra"] = .untouched ∧
    Outcome.untouched ≠ Outcome.filled ∧ Outcome.untouched ≠ Outcome.removed := by
  refine ⟨by decide, by decide, by decide, by decide, by decide⟩

/-- C4 (amended): every section ends the run filled, removed or untouched,
and the untouched outcome occurs exactly for a table section that matched
real content but has no content cell, or a table section on the removal
path whose header has no enclosing row. -/
theorem C4_amended (stype : String) (ce : Option Node) (pr : Option Node)
    (matched : List String) :
    process_section stype ce pr matched = .untouched ↔
      ((has_content matched = true ∧ stype = "table" ∧ ce = none) ∨
       (has_content matched = false ∧ stype = "table" ∧ pr = none)) := by
  by_cases hc : has_content matched = true
  · have hne : matched.isEmpty = false := by
      cases hm : matched with
      | nil => rw [hm] at hc; simp [has_content] at hc
      | cons a l => rfl
    by_cases hst : stype = "table"
    · cases ce with
      | none => simp [process_section, map_table_section_list, hc, hst]
      | some cell => simp [process_section, map_table_section_list, hc, hst, hne]
    · have hfne : (filtered_bullets matched).isEmpty = false := by
        rw [filtered_bullets_eq]
        rcases List.any_eq_true.mp hc with ⟨b, hb, hpb⟩
        have hmem : b ∈ matched.filter bulletHasContent := List.mem_filter.mpr ⟨hb, hpb⟩
        cases hfil : matched.filter bulletHasContent with
        | nil => rw [hfil] at hmem; simp at hmem
        | cons a l => rfl
      simp [process_section, map_text_section_list, hc, hst, hne, hfne]
  · have hcf : has_content matched = false := by
      cases hh : has_content matched
      · rfl
      · exact absurd hh hc
    by_cases hst : stype = "table"
    · cases pr with
      | none => simp [process_section, hcf, hst]
      | some row => simp [process_section, hcf, hst]
    · simp [process_section, hcf, hst]

/-- C4 witness: the amended characterization applied at a removal-path table
section with no enclosing row. -/
theorem C4_amended_witness :
    process_section "table" none none [] = Outcome.untouched :=
  (C4_amended "table" none none []).mpr (Or.inr ⟨by decide, rfl, rfl⟩)

/-- A document with no detectable section, one empty `div` between two
paragraphs. -/
def c5doc : Node :=
  .elem "[document]" []
    [.elem "p" [] [.text "a"], .elem "div" [] [], .elem "p" [] [.text "b"]]

/-- C5 counterexample: no section is detected in the document, yet the final
cleanup pass deletes the empty `div` — a node outside every detected
section is not byte-identical in the output. -/
theorem C5_counterexample :
    detect_table_based_sections c5doc = [] ∧
    detect_text_based_sections c5doc = [] ∧
    serializeDoc c5doc = "<p>a</p><div></div><p>b</p>" ∧
    clean_up_html_spacing (serializeDoc c5doc) = "<p>a</p><p>b</p>" ∧
    clean_up_html_spacing (serializeDoc c5doc) ≠ serializeDoc c5doc := by
  refine ⟨by decide, by decide, by decide, by decide, by decide⟩

/-- No suffix of `s` matches any of the six cleanup patterns. -/
def cleanupUntouched (s : String) : Bool :=
  noMatchAll matchBrRun s && noMatchAll matchDivBrDiv s && noMatchAll matchBrCloseDiv s
    && noMatchAll (matchEmptyTag "div") s && noMatchAll (matchEmptyTag "span") s
    && noMatchAll matchBlankLines s

/-- C5 (amended): the cleanup pass operates on the whole serialized string,
sections or not; it is the identity exactly on strings free of its six
patterns (no `br` runs, no empty `div`/`span` wrappers, no blank-line
runs), so a node outside every detected section survives byte-identically
only when it contains none of those patterns (and no metadata token). -/
theorem C5_amended (s : String) (h : cleanupUntouched s = true) :
    clean_up_html_spacing s = s := by
  unfold cleanupUntouched at h
  simp only [Bool.and_eq_true] at h
  obtain ⟨⟨⟨⟨⟨h1, h2⟩, h3⟩, h4⟩, h5⟩, h6⟩ := h
  unfold clean_up_html_spacing
  simp only [pySub_nomatch _ _ _ h1, pySub_nomatch _ _ _ h2, pySub_nomatch _ _ _ h3,
    pySub_nomatch _ _ _ h4, pySub_nomatch _ _ _ h5, pySub_nomatch _ _ _ h6]

/-- C5 witness: a pattern-free fragment passes through the cleanup
unchanged. -/
theorem C5_amended_witness :
    clean_up_html_spacing "<p>Sammanfattning</p>" = "<p>Sammanfattning</p>" :=
  C5_amended "<p>Sammanfattning</p>" (by decide)

/-- C6 counterexample: the reconciler substitutes the current date into the
template, so two runs on identical inputs executed on different days
produce different outputs whenever the template contains the date
placeholder. -/
theorem C6_counterexample :
    substitute_metadata "2025-01-01" "[Dagens datum]" = "2025-01-01" ∧
    substitute_metadata "2025-01-02" "[Dagens datum]" = "2025-01-02" ∧
    substitute_metadata "2025-01-01" "[Dagens datum]" ≠
      substitute_metadata "2025-01-02" "[Dagens datum]" := by
  refine ⟨by decide, by decide, by decide⟩

/-- C6 (amended): reconciliation is a pure function of the template, the
blocks and the current date; in particular the metadata substitution is
independent of the execution date exactly when the template does not
contain the `[Dagens datum]` token. -/
theorem C6_amended (s : String)
    (h : noMatchAll (litMatch ("[Dagens datum]".toList)) s = true) :
    ∀ t1 t2 : String, substitute_metadata t1 s = substitute_metadata t2 s := by
  intro t1 t2
  unfold substitute_metadata pyReplace
  rw [pySub_nomatch _ t1 s h, pySub_nomatch _ t2 s h]

/-- C6 witness: a date-token-free template substituted on two different
days. -/
theorem C6_amended_witness :
    substitute_metadata "2025-01-01" "<p>Rapport [Förnamn]</p>" =
      substitute_metadata "2026-12-31" "<p>Rapport [Förnamn]</p>" :=
  C6_amended "<p>Rapport [Förnamn]</p>" (by decide) "2025-01-01" "2026-12-31"

/-- A document whose table has two gray header cells with the same text. -/
def c7doc : Node :=
  .elem "[document]" []
    [.elem "table" []
      [.elem "tr" []
        [.elem "td" [("style", "background-color: #cccccc")] [.text "Hälsa"],
         .elem "td" [] []],
       .elem "tr" []
        [.elem "td" [("style", "background-color: #cccccc")] [.text "Hälsa"],
         .elem "td" [] []]]]

/-- C7 counterexample: the table detector applies no deduplication, so two
gray header cells with the same text yield two candidates with identical
names in one analysis result. -/
theorem C7_counterexample :
    (analyze_template c7doc).template_type = "table" ∧
    ((analyze_template c7doc).sections.map SectionC.name) = ["Hälsa", "Hälsa"] ∧
    ¬ ((analyze_template c7doc).sections.map SectionC.name).Nodup := by
  refine ⟨by decide, by decide, by decide⟩

/-- C7 (amended): name uniqueness holds for the text-based detector (all
three of its phases share one seen-name set, first occurrence wins, later
duplicates are dropped); the table-based detector does not deduplicate, so
uniqueness does not extend to table candidates or to mixed results. -/
theorem C7_amended (soup : Node) :
    ((detect_text_based_sections soup).map SectionC.name).Nodup := by
  unfold detect_text_based_sections
  have h1 := dedupPhase_inv acceptStrong (ctxNode (Node.isTag "strong") soup []) [] []
    (by intro s hs; simp at hs) (by simp)
  have h2 := dedupPhase_inv acceptFont (ctxNode (Node.isTag "font") soup [])
    (dedupPhase acceptStrong (ctxNode (Node.isTag "strong") soup []) [] []).1
    (dedupPhase acceptStrong (ctxNode (Node.isTag "strong") soup []) [] []).2
    h1.1 h1.2
  have h3 := dedupPhase_inv acceptSpan (ctxNode (Node.isTag "span") soup [])
    (dedupPhase acceptFont (ctxNode (Node.isTag "font") soup [])
      (dedupPhase acceptStrong (ctxNode (Node.isTag "strong") soup []) [] []).1
      (dedupPhase acceptStrong (ctxNode (Node.isTag "strong") soup []) [] []).2).1
    (dedupPhase acceptFont (ctxNode (Node.isTag "font") soup [])
      (dedupPhase acceptStrong (ctxNode (Node.isTag "strong") soup []) [] []).1
      (dedupPhase acceptStrong (ctxNode (Node.isTag "strong") soup []) [] []).2).2
    h2.1 h2.2
  dsimp only
  split_ifs
  · exact h1.2
  · exact h2.2
  · exact h3.2

/-- A block map whose only key matches the section name exactly but holds a
single placeholder bullet. -/
def c8dict : List (String × List String) := [("Hälsa", ["information saknas"])]

/-- C8: a section whose matched bullets are all placeholders (after trim and
case-fold empty or in the fixed vocabulary) takes the remove path, whatever
strategy matched the block. -/
theorem C8_placeholder_only (section_name : String) (dict : List (String × List String))
    (h : ∀ b ∈ findMatchedBullets section_name dict, bulletHasContent b = false) :
    section_path section_name dict = .remove := by
  unfold section_path
  have hfc : has_content (findMatchedBullets section_name dict) = false := by
    unfold has_content
    rw [List.any_eq_false]
    intro b hb
    rw [h b hb]
    exact Bool.false_ne_true
  rw [hfc]
  rfl

/-- C8 witness: an Exact name match whose block holds only the placeholder
bullet `information saknas` is removed. -/
theorem C8_witness :
    findMatchedBullets "Hälsa" c8dict = ["information saknas"] ∧
    section_path "Hälsa" c8dict = MapPath.remove :=
  ⟨by decide, C8_placeholder_only "Hälsa" c8dict (by decide)⟩

/-- C9: the reported template type is `table`, `text`, `mixed` or `unknown`
exactly according to which of the two detectors found candidates, and an
`unknown` result carries an empty section list. -/
theorem C9_template_type (soup : Node) :
    ((analyze_template soup).template_type = "table" ↔
      (detect_table_based_sections soup ≠ [] ∧ detect_text_based_sections soup = [])) ∧
    ((analyze_template soup).template_type = "text" ↔
      (detect_text_based_sections soup ≠ [] ∧ detect_table_based_sections soup = [])) ∧
    ((analyze_template soup).template_type = "mixed" ↔
      (detect_table_based_sections soup ≠ [] ∧ detect_text_based_sections soup ≠ [])) ∧
    ((analyze_template soup).template_type = "unknown" ↔
      (detect_table_based_sections soup = [] ∧ detect_text_based_sections soup = [])) ∧
    ((analyze_template soup).template_type = "unknown" →
      (analyze_template soup).sections = []) := by
  by_cases h1 : (detect_table_based_sections soup).isEmpty = true <;>
    by_cases h2 : (detect_text_based_sections soup).isEmpty = true <;>
      simp_all [analyze_template, List.isEmpty_iff]

/-- An empty-ish document in which neither detector finds anything. -/
def c9doc : Node := .elem "[document]" [] [.elem "p" [] [.text "hello"]]

/-- C9 witness: the unknown clause applied to a concrete sectionless
document. -/
theorem C9_witness :
    (analyze_template c9doc).template_type = "unknown" ∧
    (analyze_template c9doc).sections = [] :=
  ⟨by decide, (C9_template_type c9doc).2.2.2.2 (by decide)⟩

/-- C10: both forward placeholder sweeps are bounded — the fill sweep is
determined by the first 20 siblings after the insertion point and the
remove sweep by the first 10 after the container of the header (hence both
terminate) — and a placeholder node beyond those bounds is never collected
for removal, so it survives in the output. -/
theorem C10_sweep_bounded (sibs : List Node) (n : Node)
    (h20 : n ∈ sibs.drop 20) (hn : n ∉ sibs.take 20) :
    sweepFill sibs = sweepFill (sibs.take 20) ∧
    sweepRemove sibs = sweepRemove (sibs.take 10) ∧
    n ∉ sweepFill sibs ∧ n ∉ sweepRemove sibs := by
  have hf1 : sweepFill sibs = boundedSweep 20 fillSweepStep 1 (sibs.take 19) :=
    boundedSweep_take 20 fillSweepStep sibs 1
  have hf2 : sweepFill (sibs.take 20) =
      boundedSweep 20 fillSweepStep 1 ((sibs.take 20).take 19) :=
    boundedSweep_take 20 fillSweepStep (sibs.take 20) 1
  have htt : (sibs.take 20).take 19 = sibs.take 19 := by
    simp [List.take_take]
  have hr1 : sweepRemove sibs = boundedSweep 10 removeSweepStep 0 (sibs.take 10) :=
    boundedSweep_take 10 removeSweepStep sibs 0
  have hr2 : sweepRemove (sibs.take 10) =
      boundedSweep 10 removeSweepStep 0 ((sibs.take 10).take 10) :=
    boundedSweep_take 10 removeSweepStep (sibs.take 10) 0
  have hrr : (sibs.take 10).take 10 = sibs.take 10 := by
    simp [List.take_take]
  refine ⟨by rw [hf1, hf2, htt], by rw [hr1, hr2, hrr], ?_, ?_⟩
  · intro hmem
    rw [hf1] at hmem
    have hsub := boundedSweep_subset 20 fillSweepStep (sibs.take 19) 1 hmem
    have : n ∈ sibs.take 20 := by
      have h19 : sibs.take 19 = (sibs.take 20).take 19 := htt.symm
      rw [h19] at hsub
      exact List.take_subset 19 (sibs.take 20) hsub
    exact hn this
  · intro hmem
    rw [hr1] at hmem
    have hsub := boundedSweep_subset 10 removeSweepStep (sibs.take 10) 0 hmem
    have : n ∈ sibs.take 20 := by
      have h10 : sibs.take 10 = (sibs.take 20).take 10 := by simp [List.take_take]
      rw [h10] at hsub
      exact List.take_subset 10 (sibs.take 20) hsub
    exact hn this

/-- Twenty ordinary siblings followed by one placeholder text node. -/
def c10sibs : List Node := List.replicate 20 (Node.text "x") ++ [Node.text "(p)"]

/-- C10 witness: a placeholder at position 21 is untouched by both sweeps. -/
theorem C10_witness :
    sweepFill c10sibs = sweepFill (c10sibs.take 20) ∧
    sweepRemove c10sibs = sweepRemove (c10sibs.take 10) ∧
    Node.text "(p)" ∉ sweepFill c10sibs ∧ Node.text "(p)" ∉ sweepRemove c10sibs :=
  C10_sweep_bounded c10sibs (Node.text "(p)") (by decide) (by decide)
